import Mathlib

/-!
# Model of the remember-names persistence layer

Shallow embedding of the contact / connection / node-position store of the
repository (src/js/db.js, src/unnamed/part_000 = connections.js,
src/unnamed/part_001 = contacts.js).

The storage engine is sql.js (SQLite compiled to WebAssembly).  The code
never executes `PRAGMA foreign_keys = ON`, and SQLite leaves foreign-key
enforcement OFF by default, so the `FOREIGN KEY ... ON DELETE CASCADE`
clauses declared in `createSchema` are parsed but never enforced: inserts
referencing absent contacts succeed, and deleting a contact does not cascade
to `node_positions`.  PRIMARY KEY, NOT NULL and UNIQUE constraints are
always enforced.  The model below reflects that actual behaviour.

Rows are kept in insertion (rowid) order as Lean lists.  `ORDER BY` clauses
of read-only queries (`ORDER BY name`, `ORDER BY created_at DESC`) are not
modelled: every claim below is about the *set* of returned rows, which the
ordering does not change.  REAL-valued coordinates of node positions are
modelled as integers; no claim inspects their values.

Mutating operations return, next to the new database value, the number of
`saveToIndexedDB` flushes performed and the message of the JavaScript
`Error` thrown, if any (`none` = normal completion).  Generated ids
(`crypto.randomUUID()`) and `datetime('now')` timestamps are passed as
explicit arguments.
-/

/-- A row of the `contacts` table.  `name` is NOT NULL; the remaining data
columns are nullable (`Option`).  `created_at` is nullable because
`importData` binds the payload's value directly, which may be null. -/
structure Contact where
  id : String
  name : String
  image_url : Option String
  image_blob : Option String
  notes : Option String
  created_at : Option String
deriving DecidableEq, Repr

/-- A row of the `connections` table.  `from_contact_id`, `to_contact_id`
and `label` are NOT NULL. -/
structure Conn where
  id : String
  from_contact_id : String
  to_contact_id : String
  label : String
  created_at : Option String
deriving DecidableEq, Repr

/-- A row of the `node_positions` table (`contact_id` PRIMARY KEY,
`x`/`y` REAL, `fixed` INTEGER). -/
structure NodePos where
  contact_id : String
  x : Int
  y : Int
  fixed : Int
deriving DecidableEq, Repr

/-- The in-memory database: the three tables created by `createSchema`,
each in rowid order. -/
structure DB where
  contacts : List Contact
  connections : List Conn
  node_positions : List NodePos
deriving DecidableEq, Repr

/-- The fresh database produced by `createSchema` on a new engine. -/
def emptyDB : DB := ⟨[], [], []⟩

/-- JavaScript `x || null` applied to a string-or-null value: the empty
string is falsy, so it collapses to null. -/
def jsOrNull : Option String → Option String
  | some s => if s = "" then none else some s
  | none => none

/-- `INSERT INTO contacts ...`: enforced constraints are the PRIMARY KEY on
`id` (NOT NULL on `name` holds by the `String` type).  Foreign keys do not
apply to this table.  On violation the statement throws. -/
def insertContact (c : Contact) (cs : List Contact) : Except String (List Contact) :=
  if cs.any (fun e => e.id == c.id) then
    .error "UNIQUE constraint failed: contacts.id"
  else
    .ok (cs ++ [c])

/-- `INSERT INTO connections ...`: enforced constraints are the PRIMARY KEY
on `id` and `UNIQUE(from_contact_id, to_contact_id)`.  The declared foreign
keys are NOT enforced (`PRAGMA foreign_keys` is never enabled), so rows
referencing absent contacts are accepted. -/
def insertConn (c : Conn) (cs : List Conn) : Except String (List Conn) :=
  if cs.any (fun e => e.id == c.id) then
    .error "UNIQUE constraint failed: connections.id"
  else if cs.any (fun e => e.from_contact_id == c.from_contact_id &&
                           e.to_contact_id == c.to_contact_id) then
    .error "UNIQUE constraint failed: connections.from_contact_id, connections.to_contact_id"
  else
    .ok (cs ++ [c])

/-- `getContactById` (contacts.js): `SELECT * FROM contacts WHERE id = ?`,
returning `results[0] || null`. -/
def getContactById (id : String) (db : DB) : Option Contact :=
  (db.contacts.filter (fun c => c.id == id)).head?

/-- Input object of `createContact` / the contact form. -/
structure ContactInput where
  name : String
  imageUrl : Option String
  imageBlob : Option String
  notes : Option String
deriving DecidableEq, Repr

/-- `createContact` (contacts.js): inserts a row with a generated `id`,
`imageUrl || null`, `imageBlob || null`, `notes || null`; `created_at`
defaults to `datetime('now')` (the `now` argument); flushes; returns
`getContactById(id)`.  A PRIMARY KEY collision of the generated id throws
out of the call before the flush. -/
def createContact (inp : ContactInput) (id now : String) (db : DB) :
    DB × Option Contact × Nat × Option String :=
  match insertContact
      ⟨id, inp.name, jsOrNull inp.imageUrl, jsOrNull inp.imageBlob,
        jsOrNull inp.notes, some now⟩ db.contacts with
  | .error e => (db, none, 0, some e)
  | .ok cs =>
      let db' : DB := { db with contacts := cs }
      (db', getContactById id db', 1, none)

/-- SQLite's `LOWER()` (sql.js ships no ICU): folds the ASCII letters A-Z
only; every other character, including non-ASCII letters, passes through
unchanged.  `Char.toLower` is exactly this fold. -/
def lowerStr (s : String) : List Char := s.data.map Char.toLower

/-- Strings of ASCII characters only.  On such strings JavaScript's Unicode
`toLowerCase()` coincides exactly with the ASCII fold `lowerStr`; theorems
about `searchContacts` restrict the search term to this domain, where the
embedding of the term-side lowering is exact. -/
def AsciiOnly (s : String) : Prop := ∀ c ∈ s.data, c.toNat < 128

/-- Fuel-indexed SQLite `LIKE` matcher (no ESCAPE clause): `%` matches any
sequence, `_` exactly one character, anything else itself.  Both sides are
already lowercased by the caller, so characters are compared by equality.
The fuel argument only forces structural termination; `pattern.length +
text.length` steps always suffice. -/
def likeFuel : Nat → List Char → List Char → Bool
  | 0, _, _ => false
  | _ + 1, [], s => s.isEmpty
  | f + 1, p :: ps, s =>
    if p = '%' then
      likeFuel f ps s ||
        (match s with
         | [] => false
         | _ :: s' => likeFuel f (p :: ps) s')
    else
      match s with
      | [] => false
      | c :: s' => (p = '_' || p = c) && likeFuel f ps s'

/-- SQLite `LIKE` on already-lowercased character lists. -/
def likeMatch (pat text : List Char) : Bool :=
  likeFuel (pat.length + text.length + 1) pat text

/-- `searchContacts` (contacts.js): `SELECT * FROM contacts WHERE
LOWER(name) LIKE ?` with parameter `"%" + searchTerm.toLowerCase() + "%"`.
The stored-name side applies SQLite's ASCII-only `LOWER()`, modelled
exactly by `lowerStr`.  The term side applies JavaScript's Unicode
`toLowerCase()`, which this model also renders as `lowerStr`; the two agree
exactly when the term is ASCII (`AsciiOnly`), and theorems about this
function assume that, so the model is exact on the inputs they quantify
over (stored names remain unrestricted).  The `ORDER BY name ASC` is not
modelled (set-level claims only). -/
def searchContacts (searchTerm : String) (db : DB) : List Contact :=
  db.contacts.filter
    (fun c => likeMatch ('%' :: lowerStr searchTerm ++ ['%']) (lowerStr c.name))

/-- `deleteContact` (contacts.js): deletes every connection row mentioning
the contact, then the contact row itself, then flushes once.  Nothing
touches `node_positions` (the declared ON DELETE CASCADE is not enforced
because the foreign-keys pragma is never enabled). -/
def deleteContact (id : String) (db : DB) : DB × Nat :=
  ({ contacts := db.contacts.filter (fun c => !(c.id == id)),
     connections := db.connections.filter
       (fun c => !(c.from_contact_id == id || c.to_contact_id == id)),
     node_positions := db.node_positions }, 1)

/-- `connectionExists` (connections.js): any row between the two ids in
either ordering. -/
def connectionExists (db : DB) (fromId toId : String) : Bool :=
  db.connections.any (fun c =>
    (c.from_contact_id == fromId && c.to_contact_id == toId) ||
    (c.from_contact_id == toId && c.to_contact_id == fromId))

/-- `createConnection` (connections.js): throws on a self-connection, then
on an existing connection in either order (both before mutating anything);
otherwise inserts the two mirror rows with fresh generated ids and flushes
once.  An uncaught insert failure (possible only if a generated id
collides) propagates, leaving any row already inserted in place and
skipping the flush. -/
def createConnection (db : DB) (fromContactId toContactId label id1 id2 now : String) :
    DB × Nat × Option String :=
  if fromContactId == toContactId then
    (db, 0, some "Cannot connect a contact to themselves")
  else if connectionExists db fromContactId toContactId then
    (db, 0, some "Connection already exists between these contacts")
  else
    match insertConn ⟨id1, fromContactId, toContactId, label, some now⟩ db.connections with
    | .error e => (db, 0, some e)
    | .ok cs1 =>
        match insertConn ⟨id2, toContactId, fromContactId, label, some now⟩ cs1 with
        | .error e => ({ db with connections := cs1 }, 0, some e)
        | .ok cs2 => ({ db with connections := cs2 }, 1, none)

/-- `updateConnection` (connections.js): sets the label on the rows of the
pair in both orderings, then flushes once. -/
def updateConnection (db : DB) (fromContactId toContactId label : String) : DB × Nat :=
  ({ db with connections := db.connections.map (fun c =>
      if (c.from_contact_id == fromContactId && c.to_contact_id == toContactId) ||
         (c.from_contact_id == toContactId && c.to_contact_id == fromContactId) then
        { c with label := label }
      else c) }, 1)

/-- `deleteConnection` (connections.js): deletes the rows of the pair in
both orderings, then flushes once. -/
def deleteConnection (db : DB) (fromContactId toContactId : String) : DB × Nat :=
  ({ db with connections := db.connections.filter (fun c =>
      !((c.from_contact_id == fromContactId && c.to_contact_id == toContactId) ||
        (c.from_contact_id == toContactId && c.to_contact_id == fromContactId))) }, 1)

/-- One result row of `getConnectionsForContact`: the connection columns
plus the CASE-selected columns of the *other* contact. -/
structure ConnEntry where
  id : String
  from_contact_id : String
  to_contact_id : String
  label : String
  created_at : Option String
  other_contact_id : String
  other_contact_name : String
  other_contact_image_url : Option String
  other_contact_image_blob : Option String
deriving DecidableEq, Repr

/-- `getConnectionsForContact` (connections.js): inner-joins `connections`
with `contacts` on both endpoints (rows whose endpoint contact is missing
drop out of the join), keeps rows with the given contact on either side,
and projects the other endpoint's columns via CASE on
`from_contact_id = ?`.  `ORDER BY created_at DESC` is not modelled. -/
def getConnectionsForContact (contactId : String) (db : DB) : List ConnEntry :=
  db.connections.filterMap (fun c =>
    if c.from_contact_id == contactId || c.to_contact_id == contactId then
      match getContactById c.from_contact_id db, getContactById c.to_contact_id db with
      | some cf, some ct =>
          some ⟨c.id, c.from_contact_id, c.to_contact_id, c.label, c.created_at,
            if c.from_contact_id == contactId then ct.id else cf.id,
            if c.from_contact_id == contactId then ct.name else cf.name,
            if c.from_contact_id == contactId then ct.image_url else cf.image_url,
            if c.from_contact_id == contactId then ct.image_blob else cf.image_blob⟩
      | _, _ => none
    else none)

/-- The export/import interchange document (db.js).  The two lists are
`Option`s because `importData` checks their presence (`!data.contacts ||
!data.connections`); an empty array is truthy in JavaScript, so presence is
exactly non-nullness. -/
structure ImportDoc where
  version : Nat
  exportedAt : String
  contacts : Option (List Contact)
  connections : Option (List Conn)
deriving DecidableEq, Repr

/-- `exportData` (db.js): all contact rows and all connection rows, with a
version tag and timestamp. -/
def exportData (now : String) (db : DB) : ImportDoc :=
  ⟨1, now, some db.contacts, some db.connections⟩

/-- Contact loop of `importData`: for each payload contact, insert it only
if no stored contact already has its id.  The insert itself cannot fail:
the id was just checked and `name` is NOT NULL by type. -/
def importContacts : List Contact → List Contact → List Contact
  | [], cs => cs
  | c :: dc, cs =>
      importContacts dc (if cs.any (fun e => e.id == c.id) then cs else cs ++ [c])

/-- Connection loop of `importData`: for each payload connection, insert it
only if no stored connection already has its id; the insert is wrapped in
try/catch, so a `UNIQUE(from_contact_id, to_contact_id)` violation skips
the row.  With foreign keys unenforced no other failure can occur, and a
row whose contacts are absent is inserted, not skipped. -/
def importConns : List Conn → List Conn → List Conn
  | [], cs => cs
  | c :: dc, cs =>
      importConns dc
        (if cs.any (fun e => e.id == c.id) then cs
         else if cs.any (fun e => e.from_contact_id == c.from_contact_id &&
                                  e.to_contact_id == c.to_contact_id) then cs
         else cs ++ [c])

/-- `importData` (db.js): structural check that both lists are present
(else the whole call throws "Invalid import data format" with no state
change), then the contact loop, then the connection loop, then one flush. -/
def importData (data : ImportDoc) (db : DB) : DB × Nat × Option String :=
  match data.contacts, data.connections with
  | some dc, some dcs =>
      ({ contacts := importContacts dc db.contacts,
         connections := importConns dcs db.connections,
         node_positions := db.node_positions }, 1, none)
  | _, _ => (db, 0, some "Invalid import data format")

/-- `saveNodePositions` (db.js): `INSERT OR REPLACE` of every entry keyed
by contact id, then one flush. -/
def saveNodePositions (positions : List NodePos) (db : DB) : DB × Nat :=
  let ps' := positions.foldl
    (fun ps p => ps.filter (fun q => !(q.contact_id == p.contact_id)) ++ [p])
    db.node_positions
  ({ db with node_positions := ps' }, 1)

/-- A string unused as a connection-row id, modelling the freshness of
`crypto.randomUUID()`. -/
def FreshConnId (db : DB) (id : String) : Prop :=
  ∀ c ∈ db.connections, c.id ≠ id

/-- A string unused as a contact-row id, modelling the freshness of
`crypto.randomUUID()`. -/
def FreshContactId (db : DB) (id : String) : Prop :=
  ∀ c ∈ db.contacts, c.id ≠ id

/-- One application of a mutating public operation, with generated ids
modelled as arbitrary fresh, pairwise-distinct strings (`crypto.randomUUID`
collisions are assumed not to occur).  The parameter `P` constrains the
payloads accepted in `importData` steps; `fun _ _ => True` places no
constraint. -/
inductive Step (P : ImportDoc → DB → Prop) : DB → DB → Prop where
  | contactCreate (db : DB) (inp : ContactInput) (id now : String)
      (h : FreshContactId db id) :
      Step P db (createContact inp id now db).1
  | contactDelete (db : DB) (id : String) :
      Step P db (deleteContact id db).1
  | connCreate (db : DB) (a b l i1 i2 t : String)
      (h1 : FreshConnId db i1) (h2 : FreshConnId db i2) (h12 : i1 ≠ i2) :
      Step P db (createConnection db a b l i1 i2 t).1
  | connUpdate (db : DB) (a b l : String) :
      Step P db (updateConnection db a b l).1
  | connDelete (db : DB) (a b : String) :
      Step P db (deleteConnection db a b).1
  | positionsSave (db : DB) (ps : List NodePos) :
      Step P db (saveNodePositions ps db).1
  | dataImport (db : DB) (doc : ImportDoc) (h : P doc db) :
      Step P db (importData doc db).1

/-- States reachable from the fresh database through the public mutating
operations, import payloads constrained by `P`. -/
def Reachable (P : ImportDoc → DB → Prop) (db : DB) : Prop :=
  Relation.ReflTransGen (Step P) emptyDB db

/-- No constraint on import payloads. -/
def AnyImport : ImportDoc → DB → Prop := fun _ _ => True

/-- Mirror-pair property of a connection list: every row is accompanied by
a row with the endpoints swapped. -/
def MirrorClosed (cs : List Conn) : Prop :=
  ∀ c ∈ cs, ∃ d ∈ cs,
    d.from_contact_id = c.to_contact_id ∧ d.to_contact_id = c.from_contact_id

/-- Mirror-pair invariant of a database state: for every pair of ids, the
two directed rows exist together or not at all. -/
def MirrorOK (db : DB) : Prop := MirrorClosed db.connections

/-- Import payloads that merge cleanly with respect to the mirror-pair
invariant: the connection list is mirror-closed, its ids are pairwise
distinct, and none of its ids is already present in the database. -/
def CleanImport (doc : ImportDoc) (db : DB) : Prop :=
  ∀ dcs, doc.connections = some dcs →
    MirrorClosed dcs ∧ (dcs.map Conn.id).Nodup ∧
      ∀ c ∈ dcs, ∀ d ∈ db.connections, c.id ≠ d.id

/-- Referential integrity of a database state: every connection endpoint
and every node-position key names an existing contact row. -/
def RefIntegrity (db : DB) : Prop :=
  (∀ c ∈ db.connections,
     (∃ k ∈ db.contacts, k.id = c.from_contact_id) ∧
     (∃ k ∈ db.contacts, k.id = c.to_contact_id)) ∧
  (∀ p ∈ db.node_positions, ∃ k ∈ db.contacts, k.id = p.contact_id)

/-- The spec-side search predicate, stated from the specification's words:
the (lowercased) search term occurs as a contiguous substring of the
(lowercased) stored name.  Lowercasing is the ASCII fold of SQLite's
`LOWER()`; for the term side this agrees with JavaScript's `toLowerCase()`
exactly on `AsciiOnly` terms, to which the theorems below restrict.  It is
compared below with the source-side `searchContacts`. -/
def SpecNameContains (term name : String) : Prop :=
  lowerStr term <:+: lowerStr name

/-! ### Concrete instances used by individual claims -/

/-- A one-direction import payload: its single connection row has no mirror
row. -/
def c1Doc : ImportDoc := ⟨1, "t0", some [], some [⟨"c1", "A", "B", "x", none⟩]⟩

/-- The state reached by importing `c1Doc` into the fresh database. -/
def c1BadDB : DB := (importData c1Doc emptyDB).1

/-- A database with one contact and one node-position row for it. -/
def c2DB : DB := ⟨[⟨"A", "Ann", none, none, none, none⟩], [], [⟨"A", 3, 4, 0⟩]⟩

/-- The state reached from the fresh database by one `createConnection`
call whose arguments name contacts that do not exist. -/
def c3BadDB : DB := (createConnection emptyDB "A" "B" "x" "i1" "i2" "t0").1

/-- An import payload whose single connection row references contacts that
are absent from the database. -/
def c6Doc : ImportDoc := ⟨1, "t6", some [], some [⟨"k1", "P", "Q", "friend", none⟩]⟩

/-- The example scenario of the spec: from the fresh database, create
contacts Alice and Bob and one connection Alice→Bob labelled "friend",
with the given generated ids and timestamps. -/
def c7Scenario (ia ib i1 i2 t1 t2 t3 : String) : DB :=
  (createConnection
    ((createContact ⟨"Bob", none, none, none⟩ ib t2
      ((createContact ⟨"Alice", none, none, none⟩ ia t1 emptyDB).1)).1)
    ia ib "friend" i1 i2 t3).1

/-- The example scenario at concrete generated ids. -/
def c7DB : DB := c7Scenario "ida" "idb" "k1" "k2" "t1" "t2" "t3"

/-- A database used for the duplicate-connection rejection: one connection
row between `a` and `b` already exists. -/
def c8DB : DB := ⟨[], [⟨"k", "a", "b", "x", none⟩], []⟩

/-- A contact input whose `imageUrl` is the empty string (falsy in
JavaScript). -/
def c9Input : ContactInput := ⟨"Nina", some "", none, none⟩

/-- A database with a single contact named "abc". -/
def c10DB : DB := ⟨[⟨"x1", "abc", none, none, none, none⟩], [], []⟩

/-! ## Helper lemmas about the import merge loops -/

theorem importContacts_of_ids_present (dc : List Contact) :
    ∀ cs : List Contact, (∀ c ∈ dc, ∃ e ∈ cs, e.id = c.id) → importContacts dc cs = cs := by
  induction dc with
  | nil => intro cs _; rfl
  | cons c dc ih =>
      intro cs h
      obtain ⟨e, he, hid⟩ := h c (by simp)
      have hany : cs.any (fun e => e.id == c.id) = true :=
        List.any_eq_true.mpr ⟨e, he, by simp [hid]⟩
      simp only [importContacts, hany, if_pos]
      exact ih cs (fun x hx => h x (by simp [hx]))

theorem mem_importContacts_of_mem (dc : List Contact) :
    ∀ cs : List Contact, ∀ x ∈ cs, x ∈ importContacts dc cs := by
  induction dc with
  | nil => intro cs x hx; simpa [importContacts] using hx
  | cons c dc ih =>
      intro cs x hx
      simp only [importContacts]
      by_cases hany : cs.any (fun e => e.id == c.id) = true
      · simp only [hany, if_pos]; exact ih cs x hx
      · simp only [eq_false_of_ne_true hany, if_neg Bool.false_ne_true]
        exact ih _ x (by simp [hx])

theorem importContacts_id_present (dc : List Contact) :
    ∀ cs : List Contact, ∀ c ∈ dc, ∃ e ∈ importContacts dc cs, e.id = c.id := by
  induction dc with
  | nil => intro cs c hc; cases hc
  | cons c dc ih =>
      intro cs x hx
      simp only [importContacts]
      by_cases hany : cs.any (fun e => e.id == c.id) = true
      · simp only [hany, if_pos]
        rcases List.mem_cons.mp hx with rfl | hx'
        · obtain ⟨e, he, hid⟩ := List.any_eq_true.mp hany
          exact ⟨e, mem_importContacts_of_mem dc cs e he, by simpa using hid⟩
        · exact ih cs x hx'
      · simp only [eq_false_of_ne_true hany, if_neg Bool.false_ne_true]
        rcases List.mem_cons.mp hx with rfl | hx'
        · exact ⟨x, mem_importContacts_of_mem dc _ x (by simp), rfl⟩
        · exact ih _ x hx'

theorem importConns_of_present (dc : List Conn) :
    ∀ cs : List Conn,
      (∀ c ∈ dc, (∃ e ∈ cs, e.id = c.id) ∨
        (∃ e ∈ cs, e.from_contact_id = c.from_contact_id ∧ e.to_contact_id = c.to_contact_id)) →
      importConns dc cs = cs := by
  induction dc with
  | nil => intro cs _; rfl
  | cons c dc ih =>
      intro cs h
      have hstep : (if cs.any (fun e => e.id == c.id) then cs
          else if cs.any (fun e => e.from_contact_id == c.from_contact_id &&
                                   e.to_contact_id == c.to_contact_id) then cs
          else cs ++ [c]) = cs := by
        rcases h c (by simp) with ⟨e, he, hid⟩ | ⟨e, he, hf, ht⟩
        · have : cs.any (fun e => e.id == c.id) = true :=
            List.any_eq_true.mpr ⟨e, he, by simp [hid]⟩
          simp [this]
        · have : cs.any (fun e => e.from_contact_id == c.from_contact_id &&
              e.to_contact_id == c.to_contact_id) = true :=
            List.any_eq_true.mpr ⟨e, he, by simp [hf, ht]⟩
          simp [this]
      simp only [importConns, hstep]
      exact ih cs (fun x hx => h x (by simp [hx]))

theorem mem_importConns_of_mem (dc : List Conn) :
    ∀ cs : List Conn, ∀ x ∈ cs, x ∈ importConns dc cs := by
  induction dc with
  | nil => intro cs x hx; simpa [importConns] using hx
  | cons c dc ih =>
      intro cs x hx
      simp only [importConns]
      split
      · exact ih cs x hx
      · split
        · exact ih cs x hx
        · exact ih _ x (by simp [hx])

theorem importConns_present (dc : List Conn) :
    ∀ cs : List Conn, ∀ c ∈ dc,
      (∃ e ∈ importConns dc cs, e.id = c.id) ∨
      (∃ e ∈ importConns dc cs,
        e.from_contact_id = c.from_contact_id ∧ e.to_contact_id = c.to_contact_id) := by
  induction dc with
  | nil => intro cs c hc; cases hc
  | cons c dc ih =>
      intro cs x hx
      rcases List.mem_cons.mp hx with rfl | hx'
      · simp only [importConns]
        by_cases h1 : cs.any (fun e => e.id == x.id) = true
        · obtain ⟨e, he, hid⟩ := List.any_eq_true.mp h1
          left
          exact ⟨e, by simp only [h1, if_pos]; exact mem_importConns_of_mem dc cs e he,
            by simpa using hid⟩
        · by_cases h2 : cs.any (fun e => e.from_contact_id == x.from_contact_id &&
              e.to_contact_id == x.to_contact_id) = true
          · obtain ⟨e, he, hpair⟩ := List.any_eq_true.mp h2
            right
            refine ⟨e, ?_, ?_⟩
            · simp only [eq_false_of_ne_true h1, if_neg Bool.false_ne_true, h2, if_pos]
              exact mem_importConns_of_mem dc cs e he
            · constructor <;> simp_all
          · left
            refine ⟨x, ?_, rfl⟩
            simp only [eq_false_of_ne_true h1, if_neg Bool.false_ne_true,
              eq_false_of_ne_true h2, if_neg Bool.false_ne_true]
            exact mem_importConns_of_mem dc _ x (by simp)
      · simp only [importConns]
        exact ih _ x hx'

/-- C4: re-importing a database's own export changes nothing — every
exported row's id is already present, so every insert is skipped. -/
theorem c4_export_import_roundtrip (now : String) (db : DB) :
    (importData (exportData now db) db).1 = db := by
  cases db with
  | mk contacts connections node_positions =>
      simp only [importData, exportData]
      congr 1
      · exact importContacts_of_ids_present contacts contacts
          (fun c hc => ⟨c, hc, rfl⟩)
      · exact importConns_of_present connections connections
          (fun c hc => Or.inl ⟨c, hc, rfl⟩)

/-- C5: importing the same document twice yields the same state as importing
it once — after the first import every payload row's id (or, for a
connection skipped on the pair constraint, its ordered endpoint pair) is
present, so the second pass inserts nothing. -/
theorem c5_import_idempotent (doc : ImportDoc) (db : DB) :
    (importData doc (importData doc db).1).1 = (importData doc db).1 := by
  match hdc : doc.contacts, hdcs : doc.connections with
  | none, _ => simp [importData, hdc]
  | some dc, none => simp [importData, hdc, hdcs]
  | some dc, some dcs =>
      simp only [importData, hdc, hdcs]
      congr 1
      · exact importContacts_of_ids_present dc _
          (fun c hc => importContacts_id_present dc db.contacts c hc)
      · exact importConns_of_present dcs _
          (fun c hc => importConns_present dcs db.connections c hc)

/-! ## C2, C3, C6: consequences of the never-enabled foreign-keys pragma -/

/-- C2: evaluating `deleteContact` at a database holding a contact "A" and
a node-position row for "A": the connection rows and the contact row are
gone, but the node-position row for "A" survives — the declared ON DELETE
CASCADE on `node_positions` never fires because the foreign-keys pragma is
never enabled, and `deleteContact` issues no DELETE against that table. -/
theorem c2_delete_leaves_node_positions :
    (deleteContact "A" c2DB).1.connections = [] ∧
    getContactById "A" (deleteContact "A" c2DB).1 = none ∧
    (deleteContact "A" c2DB).1.node_positions = [⟨"A", 3, 4, 0⟩] := by
  refine ⟨rfl, rfl, rfl⟩

/-- C3: a state reachable by one public `createConnection` call violates
referential integrity — with foreign keys unenforced, the two inserted
mirror rows reference contacts that do not exist, and the call reports
success. -/
theorem c3_reachable_integrity_violation :
    Reachable AnyImport c3BadDB ∧ ¬ RefIntegrity c3BadDB := by
  constructor
  · exact Relation.ReflTransGen.single
      (Step.connCreate emptyDB "A" "B" "x" "i1" "i2" "t0"
        (by intro c hc; cases hc) (by intro c hc; cases hc) (by decide))
  · unfold RefIntegrity
    decide

/-- C6: importing a structurally valid payload whose single connection row
references absent contacts *inserts* the row instead of skipping it: with
the foreign-keys pragma never enabled, the insert raises no constraint
error for the try/catch to skip.  The import succeeds with one flush. -/
theorem c6_missing_contact_row_inserted :
    importData c6Doc emptyDB =
      (⟨[], [⟨"k1", "P", "Q", "friend", none⟩], []⟩, 1, none) := by
  rfl

/-- C8: both rejection paths of `createConnection`.  A self-connection is
rejected with the named error "Cannot connect a contact to themselves"; a
pair with an existing connection row in either order is rejected with the
named error "Connection already exists between these contacts".  In both
cases the returned state is the input state and no flush is performed. -/
theorem c8_rejections_leave_state_unchanged :
    (∀ (db : DB) (a l i1 i2 t : String),
      createConnection db a a l i1 i2 t =
        (db, 0, some "Cannot connect a contact to themselves")) ∧
    (∀ (db : DB) (a b l i1 i2 t : String), a ≠ b →
      (∃ c ∈ db.connections,
        (c.from_contact_id = a ∧ c.to_contact_id = b) ∨
        (c.from_contact_id = b ∧ c.to_contact_id = a)) →
      createConnection db a b l i1 i2 t =
        (db, 0, some "Connection already exists between these contacts")) := by
  constructor
  · intro db a l i1 i2 t
    simp [createConnection]
  · intro db a b l i1 i2 t hab ⟨c, hc, hor⟩
    have hex : connectionExists db a b = true := by
      refine List.any_eq_true.mpr ⟨c, hc, ?_⟩
      rcases hor with ⟨hf, ht⟩ | ⟨hf, ht⟩ <;> simp [hf, ht]
    simp [createConnection, hab, hex]

/-- Witness for C8 at concrete inputs: a self-connection on the fresh
database, and a duplicate connection on a database already holding a row
between "a" and "b". -/
theorem c8_rejections_witness :
    createConnection emptyDB "a" "a" "x" "i1" "i2" "t0" =
      (emptyDB, 0, some "Cannot connect a contact to themselves") ∧
    createConnection c8DB "a" "b" "x" "i1" "i2" "t0" =
      (c8DB, 0, some "Connection already exists between these contacts") :=
  ⟨c8_rejections_leave_state_unchanged.1 emptyDB "a" "x" "i1" "i2" "t0",
   c8_rejections_leave_state_unchanged.2 c8DB "a" "b" "x" "i1" "i2" "t0"
     (by decide) ⟨⟨"k", "a", "b", "x", none⟩, by decide, by decide⟩⟩

/-! ## C9: createContact / getContactById -/

/-- C9 counterexample: for the input whose `imageUrl` is the empty string,
the stored and re-read contact's `image_url` is null, not the input's
value — `createContact` passes `imageUrl || null`, and the empty string is
falsy in JavaScript. -/
theorem c9_counterexample :
    (getContactById "i1" (createContact c9Input "i1" "t0" emptyDB).1).map
        Contact.image_url ≠ some c9Input.imageUrl := by
  decide

/-- C9 (amended): reading back a created contact returns the input's name
unchanged and the input's `imageUrl`, `imageBlob` and `notes` with
empty-string and absent values coerced to null (JavaScript `|| null`); `id`
and `created_at` are the generated values. -/
theorem c9_create_then_get (inp : ContactInput) (id now : String) (db : DB)
    (h : FreshContactId db id) :
    getContactById id (createContact inp id now db).1 =
      some ⟨id, inp.name, jsOrNull inp.imageUrl, jsOrNull inp.imageBlob,
        jsOrNull inp.notes, some now⟩ := by
  have hany : db.contacts.any (fun e => e.id == id) = false := by
    rw [List.any_eq_false]
    intro c hc
    simpa using h c hc
  have hfilter : db.contacts.filter (fun c => c.id == id) = [] := by
    rw [List.filter_eq_nil_iff]
    intro c hc
    simpa using h c hc
  simp [createContact, insertContact, hany, getContactById, List.filter_append, hfilter]

/-- Witness for C9 (amended) at a concrete fresh input. -/
theorem c9_create_then_get_witness :
    getContactById "i9" (createContact ⟨"Mia", some "u", none, some "n"⟩ "i9" "t9" emptyDB).1 =
      some ⟨"i9", "Mia", some "u", none, some "n", some "t9"⟩ :=
  c9_create_then_get ⟨"Mia", some "u", none, some "n"⟩ "i9" "t9" emptyDB
    (by intro c hc; cases hc)

/-! ## C10: LIKE-matcher lemmas and searchContacts -/

theorem likeFuel_pct_all : ∀ (f : Nat) (t : List Char),
    t.length + 2 ≤ f → likeFuel f ['%'] t = true := by
  intro f
  induction f with
  | zero => intro t h; omega
  | succ f ih =>
      intro t h
      cases t with
      | nil =>
          obtain ⟨f', rfl⟩ : ∃ f', f = f' + 1 := ⟨f - 1, by omega⟩
          simp [likeFuel]
      | cons c t' =>
          have := ih t' (by simpa using Nat.le_of_succ_le_succ (by simpa using h))
          simp only [likeFuel, if_true, Bool.or_eq_true]
          right
          exact this

theorem likeFuel_trailing_pct : ∀ (mid : List Char), '%' ∉ mid → '_' ∉ mid →
    ∀ (f : Nat) (t : List Char), mid.length + t.length + 2 ≤ f →
      (likeFuel f (mid ++ ['%']) t = true ↔ mid <+: t) := by
  intro mid
  induction mid with
  | nil =>
      intro _ _ f t h
      simp only [List.nil_append]
      exact ⟨fun _ => List.nil_prefix, fun _ => likeFuel_pct_all f t (by simpa using h)⟩
  | cons c mid ih =>
      intro hpc hus f t h
      have hc1 : c ≠ '%' := fun hc => hpc (hc ▸ List.mem_cons_self c mid)
      have hc2 : c ≠ '_' := fun hc => hus (hc ▸ List.mem_cons_self c mid)
      have hpc' : '%' ∉ mid := fun hm => hpc (List.mem_cons_of_mem c hm)
      have hus' : '_' ∉ mid := fun hm => hus (List.mem_cons_of_mem c hm)
      obtain ⟨f', rfl⟩ : ∃ f', f = f' + 1 := ⟨f - 1, by simp at h; omega⟩
      simp only [List.cons_append, likeFuel, if_neg hc1]
      cases t with
      | nil =>
          simp only [List.prefix_nil]
          constructor
          · intro hfalse; cases hfalse
          · intro hne; cases hne
      | cons d t' =>
          have hbound : mid.length + t'.length + 2 ≤ f' := by
            simp at h; omega
          rw [Bool.and_eq_true, Bool.or_eq_true]
          rw [decide_eq_true_iff, decide_eq_true_iff]
          simp only [List.append_eq]
          rw [ih hpc' hus' f' t' hbound]
          rw [List.cons_prefix_cons]
          constructor
          · rintro ⟨h1 | h1, h2⟩
            · exact absurd h1 hc2
            · exact ⟨h1, h2⟩
          · rintro ⟨h1, h2⟩
            exact ⟨Or.inr h1, h2⟩

theorem likeFuel_infix_pattern (mid : List Char) (hpc : '%' ∉ mid) (hus : '_' ∉ mid) :
    ∀ (s : List Char) (f : Nat), mid.length + s.length + 3 ≤ f →
      (likeFuel f ('%' :: (mid ++ ['%'])) s = true ↔ mid <:+: s) := by
  intro s
  induction s with
  | nil =>
      intro f h
      obtain ⟨f', rfl⟩ : ∃ f', f = f' + 1 := ⟨f - 1, by omega⟩
      simp only [likeFuel, if_true, Bool.or_false]
      rw [likeFuel_trailing_pct mid hpc hus f' [] (by simp at h ⊢; omega)]
      rw [List.prefix_nil, List.infix_nil]
  | cons a s' ih =>
      intro f h
      obtain ⟨f', rfl⟩ : ∃ f', f = f' + 1 := ⟨f - 1, by omega⟩
      simp only [likeFuel, if_true, Bool.or_eq_true]
      rw [likeFuel_trailing_pct mid hpc hus f' (a :: s') (by simp at h ⊢; omega)]
      rw [ih f' (by simp at h ⊢; omega)]
      exact (List.infix_cons_iff).symm

theorem likeMatch_infix_pattern (mid s : List Char) (hpc : '%' ∉ mid) (hus : '_' ∉ mid) :
    (likeMatch ('%' :: mid ++ ['%']) s = true ↔ mid <:+: s) := by
  unfold likeMatch
  exact likeFuel_infix_pattern mid hpc hus s _
    (by simp only [List.length_cons, List.length_append, List.length_singleton]; omega)

/-- C10 counterexample: the search term "a_c" returns the contact named
"abc" — the underscore is an unescaped LIKE wildcard matching the letter b
— although "a_c" is not a substring of "abc" in any letter case. -/
theorem c10_counterexample :
    (⟨"x1", "abc", none, none, none, none⟩ : Contact) ∈ searchContacts "a_c" c10DB ∧
    ¬ SpecNameContains "a_c" "abc" := by
  constructor
  · decide
  · unfold SpecNameContains lowerStr
    decide

/-- C10 (amended): for ASCII search terms containing no LIKE wildcard
character ('%' or '_') — the domain on which the embedding of the JS
term-side lowering is exact — `searchContacts` returns exactly the stored
contacts (names unrestricted) whose ASCII-lowercased name contains the
lowercased term as a contiguous substring. -/
theorem c10_search_characterization (term : String) (db : DB) (c : Contact)
    (_hterm : AsciiOnly term)
    (hpc : '%' ∉ lowerStr term) (hus : '_' ∉ lowerStr term) :
    c ∈ searchContacts term db ↔ c ∈ db.contacts ∧ SpecNameContains term c.name := by
  unfold searchContacts SpecNameContains
  rw [List.mem_filter]
  rw [likeMatch_infix_pattern (lowerStr term) (lowerStr c.name) hpc hus]

/-- Witness for C10 (amended) at the ASCII, wildcard-free term "b" on the
database holding the single contact "abc". -/
theorem c10_search_characterization_witness :
    ((⟨"x1", "abc", none, none, none, none⟩ : Contact) ∈ searchContacts "b" c10DB ↔
      (⟨"x1", "abc", none, none, none, none⟩ : Contact) ∈ c10DB.contacts ∧
        SpecNameContains "b" "abc") :=
  c10_search_characterization "b" c10DB ⟨"x1", "abc", none, none, none, none⟩
    (by unfold AsciiOnly; decide) (by decide) (by decide)

/-! ## C1: mirror-pair invariant -/

theorem mirrorClosed_nil : MirrorClosed [] := by
  intro c hc
  cases hc

theorem mirrorClosed_append_pair (cs : List Conn) (h : MirrorClosed cs) (r1 r2 : Conn)
    (hf : r2.from_contact_id = r1.to_contact_id) (ht : r2.to_contact_id = r1.from_contact_id) :
    MirrorClosed (cs ++ [r1, r2]) := by
  intro c hc
  rcases List.mem_append.mp hc with hc' | hc'
  · obtain ⟨d, hd, hdf, hdt⟩ := h c hc'
    exact ⟨d, List.mem_append_left _ hd, hdf, hdt⟩
  · have hc2 : c = r1 ∨ c = r2 := by simpa using hc'
    rcases hc2 with rfl | rfl
    · exact ⟨r2, List.mem_append_right _ (by simp), hf, ht⟩
    · exact ⟨r1, List.mem_append_right _ (by simp), ht.symm, hf.symm⟩

theorem mirrorClosed_filter (p : Conn → Bool) (cs : List Conn)
    (hsym : ∀ c d : Conn, d.from_contact_id = c.to_contact_id →
      d.to_contact_id = c.from_contact_id → p c = p d)
    (h : MirrorClosed cs) : MirrorClosed (cs.filter p) := by
  intro c hc
  obtain ⟨hc', hp⟩ := List.mem_filter.mp hc
  obtain ⟨d, hd, hdf, hdt⟩ := h c hc'
  refine ⟨d, List.mem_filter.mpr ⟨hd, ?_⟩, hdf, hdt⟩
  rw [← hsym c d hdf hdt]
  exact hp

theorem mirrorClosed_map (f : Conn → Conn) (cs : List Conn)
    (hf : ∀ c, (f c).from_contact_id = c.from_contact_id ∧
      (f c).to_contact_id = c.to_contact_id)
    (h : MirrorClosed cs) : MirrorClosed (cs.map f) := by
  intro c hc
  obtain ⟨x, hx, rfl⟩ := List.mem_map.mp hc
  obtain ⟨d, hd, hdf, hdt⟩ := h x hx
  refine ⟨f d, List.mem_map_of_mem f hd, ?_, ?_⟩
  · rw [(hf d).1, hdf, (hf x).2]
  · rw [(hf d).2, hdt, (hf x).1]

theorem importConns_mem_src (dc : List Conn) :
    ∀ cs x, x ∈ importConns dc cs → x ∈ cs ∨ x ∈ dc := by
  induction dc with
  | nil =>
      intro cs x hx
      exact Or.inl (by simpa [importConns] using hx)
  | cons c dc ih =>
      intro cs x hx
      simp only [importConns] at hx
      rcases ih _ x hx with h' | h'
      · by_cases h1 : cs.any (fun e => e.id == c.id) = true
        · simp only [h1, if_pos] at h'
          exact Or.inl h'
        · simp only [eq_false_of_ne_true h1, if_neg Bool.false_ne_true] at h'
          by_cases h2 : cs.any (fun e => e.from_contact_id == c.from_contact_id &&
              e.to_contact_id == c.to_contact_id) = true
          · simp only [h2, if_pos] at h'
            exact Or.inl h'
          · simp only [eq_false_of_ne_true h2, if_neg Bool.false_ne_true] at h'
            rcases List.mem_append.mp h' with h3 | h3
            · exact Or.inl h3
            · have hxc : x = c := by simpa using h3
              exact Or.inr (by simp [hxc])
      · exact Or.inr (by simp [h'])

theorem importConns_pair_reached (dc : List Conn) :
    ∀ cs : List Conn, (∀ c ∈ dc, ∀ d ∈ cs, c.id ≠ d.id) → (dc.map Conn.id).Nodup →
      ∀ c ∈ dc, ∃ e ∈ importConns dc cs,
        e.from_contact_id = c.from_contact_id ∧ e.to_contact_id = c.to_contact_id := by
  induction dc with
  | nil => intro cs _ _ c hc; cases hc
  | cons c dc ih =>
      intro cs hfresh hnodup x hx
      have hid : cs.any (fun e => e.id == c.id) = false := by
        rw [List.any_eq_false]
        intro d hd
        simpa using (hfresh c (by simp) d hd).symm
      have hnd := List.nodup_cons.mp
        (show (c.id :: dc.map Conn.id).Nodup by simpa using hnodup)
      have hnodup' : (dc.map Conn.id).Nodup := hnd.2
      have hcid : c.id ∉ dc.map Conn.id := hnd.1
      simp only [importConns, hid, if_neg Bool.false_ne_true]
      by_cases hpair : cs.any (fun e => e.from_contact_id == c.from_contact_id &&
          e.to_contact_id == c.to_contact_id) = true
      · simp only [hpair, if_pos]
        rcases List.mem_cons.mp hx with rfl | hx'
        · obtain ⟨e, he, hee⟩ := List.any_eq_true.mp hpair
          refine ⟨e, mem_importConns_of_mem dc cs e he, ?_, ?_⟩ <;> simp_all
        · exact ih cs (fun a ha d hd => hfresh a (by simp [ha]) d hd) hnodup' x hx'
      · simp only [eq_false_of_ne_true hpair, if_neg Bool.false_ne_true]
        rcases List.mem_cons.mp hx with rfl | hx'
        · exact ⟨x, mem_importConns_of_mem dc _ x (by simp), rfl, rfl⟩
        · refine ih (cs ++ [c]) ?_ hnodup' x hx'
          intro a ha d hd
          rcases List.mem_append.mp hd with hd' | hd'
          · exact hfresh a (by simp [ha]) d hd'
          · have hdc : d = c := by simpa using hd'
            rw [hdc]
            intro hcontra
            exact hcid (hcontra ▸ List.mem_map_of_mem Conn.id ha)
  
theorem importConns_mirror (dc cs : List Conn) (hm : MirrorClosed cs)
    (hdc : MirrorClosed dc) (hnodup : (dc.map Conn.id).Nodup)
    (hfresh : ∀ c ∈ dc, ∀ d ∈ cs, c.id ≠ d.id) :
    MirrorClosed (importConns dc cs) := by
  intro c hc
  rcases importConns_mem_src dc cs c hc with h' | h'
  · obtain ⟨d, hd, hdf, hdt⟩ := hm c h'
    exact ⟨d, mem_importConns_of_mem dc cs d hd, hdf, hdt⟩
  · obtain ⟨m, hmm, hmf, hmt⟩ := hdc c h'
    obtain ⟨e, he, hef, het⟩ := importConns_pair_reached dc cs hfresh hnodup m hmm
    exact ⟨e, he, by rw [hef, hmf], by rw [het, hmt]⟩

theorem createContact_connections (inp : ContactInput) (id now : String) (db : DB) :
    (createContact inp id now db).1.connections = db.connections := by
  unfold createContact
  cases insertContact ⟨id, inp.name, jsOrNull inp.imageUrl, jsOrNull inp.imageBlob,
    jsOrNull inp.notes, some now⟩ db.contacts <;> rfl

theorem createConnection_mirror (db : DB) (a b l i1 i2 t : String)
    (h1 : FreshConnId db i1) (h2 : FreshConnId db i2) (h12 : i1 ≠ i2)
    (hm : MirrorOK db) : MirrorOK (createConnection db a b l i1 i2 t).1 := by
  unfold createConnection
  by_cases hab : (a == b) = true
  · simp only [hab, if_pos]
    exact hm
  · simp only [eq_false_of_ne_true hab, if_neg Bool.false_ne_true]
    by_cases hex : connectionExists db a b = true
    · simp only [hex, if_pos]
      exact hm
    · simp only [eq_false_of_ne_true hex, if_neg Bool.false_ne_true]
      have hab' : a ≠ b := by simpa using hab
      have hex' : ∀ c ∈ db.connections,
          ¬(c.from_contact_id = a ∧ c.to_contact_id = b) ∧
          ¬(c.from_contact_id = b ∧ c.to_contact_id = a) := by
        intro c hc
        have hfalse : connectionExists db a b = false := eq_false_of_ne_true hex
        rw [connectionExists, List.any_eq_false] at hfalse
        have := hfalse c hc
        constructor <;> (intro hcon; simp [hcon.1, hcon.2] at this)
      have hins1 : insertConn ⟨i1, a, b, l, some t⟩ db.connections =
          .ok (db.connections ++ [⟨i1, a, b, l, some t⟩]) := by
        unfold insertConn
        rw [if_neg, if_neg]
        · rw [Bool.not_eq_true, List.any_eq_false]
          intro e he
          have := (hex' e he).1
          simpa using fun hf ht => this ⟨hf, ht⟩
        · rw [Bool.not_eq_true, List.any_eq_false]
          intro e he
          simpa using h1 e he
      have hins2 : insertConn ⟨i2, b, a, l, some t⟩
            (db.connections ++ [⟨i1, a, b, l, some t⟩]) =
          .ok (db.connections ++ [⟨i1, a, b, l, some t⟩] ++ [⟨i2, b, a, l, some t⟩]) := by
        unfold insertConn
        rw [if_neg, if_neg]
        · rw [Bool.not_eq_true, List.any_eq_false]
          intro e he
          rcases List.mem_append.mp he with he' | he'
          · have := (hex' e he').2
            simpa using fun hf ht => this ⟨hf, ht⟩
          · have : e = ⟨i1, a, b, l, some t⟩ := by simpa using he'
            subst this
            simpa using fun hf _ => hab' hf
        · rw [Bool.not_eq_true, List.any_eq_false]
          intro e he
          rcases List.mem_append.mp he with he' | he'
          · simpa using h2 e he'
          · have : e = ⟨i1, a, b, l, some t⟩ := by simpa using he'
            subst this
            simpa using h12
      simp only [hins1]
      simp only [hins2]
      show MirrorClosed (db.connections ++ [⟨i1, a, b, l, some t⟩] ++ [⟨i2, b, a, l, some t⟩])
      rw [List.append_assoc]
      exact mirrorClosed_append_pair db.connections hm _ _ rfl rfl

theorem step_preserves_mirror {db db' : DB} (h : Step CleanImport db db')
    (hm : MirrorOK db) : MirrorOK db' := by
  cases h with
  | contactCreate inp id now hfresh =>
      unfold MirrorOK
      rw [createContact_connections]
      exact hm
  | contactDelete id =>
      unfold MirrorOK deleteContact
      exact mirrorClosed_filter _ _
        (fun c d hdf hdt => by simp [hdf, hdt, Bool.or_comm]) hm
  | connCreate a b l i1 i2 t h1 h2 h12 =>
      exact createConnection_mirror db a b l i1 i2 t h1 h2 h12 hm
  | connUpdate a b l =>
      unfold MirrorOK updateConnection
      refine mirrorClosed_map _ _ (fun c => ?_) hm
      dsimp only
      split <;> exact ⟨rfl, rfl⟩
  | connDelete a b =>
      unfold MirrorOK deleteConnection
      exact mirrorClosed_filter _ _
        (fun c d hdf hdt => by simp [hdf, hdt, Bool.or_comm, Bool.and_comm]) hm
  | positionsSave ps =>
      unfold MirrorOK
      exact hm
  | dataImport doc hP =>
      unfold MirrorOK importData
      cases hdc : doc.contacts with
      | none => exact hm
      | some dc =>
          cases hdcs : doc.connections with
          | none => exact hm
          | some dcs =>
              obtain ⟨hmc, hnodup, hfresh⟩ := hP dcs hdcs
              exact importConns_mirror dcs db.connections hm hmc hnodup hfresh

/-- C1 (amended): starting from the fresh database, every state reachable
through the public mutating operations preserves the mirror-pair
invariant, provided each `importData` payload's connection list is
mirror-closed, has pairwise-distinct ids, and reuses no id already in the
database.  (The other operations need no side condition.) -/
theorem c1_mirror_invariant (db : DB) (h : Reachable CleanImport db) : MirrorOK db := by
  unfold Reachable at h
  induction h with
  | refl => exact mirrorClosed_nil
  | tail hsteps hstep ih => exact step_preserves_mirror hstep ih

/-- Witness for C1 (amended): the state after one `createConnection` on
the fresh database satisfies the mirror-pair invariant. -/
theorem c1_mirror_invariant_witness :
    MirrorOK (createConnection emptyDB "a" "b" "x" "i1" "i2" "t0").1 :=
  c1_mirror_invariant _
    (Relation.ReflTransGen.single
      (Step.connCreate emptyDB "a" "b" "x" "i1" "i2" "t0"
        (by intro c hc; cases hc) (by intro c hc; cases hc) (by decide)))

/-- C1 counterexample: importing a payload holding only one direction of a
pair — a public `importData` call — reaches a state where the row (A,B)
exists without its mirror (B,A). -/
theorem c1_counterexample : Reachable AnyImport c1BadDB ∧ ¬ MirrorOK c1BadDB := by
  constructor
  · exact Relation.ReflTransGen.single (Step.dataImport emptyDB c1Doc trivial)
  · unfold MirrorOK MirrorClosed
    decide

/-! ## C7: the example scenario -/

/-- C7 counterexample: in the example scenario, `getConnectionsForContact`
on Alice's id does not return exactly one entry — both mirror rows of the
single relationship match the WHERE clause, so two entries come back. -/
theorem c7_counterexample : (getConnectionsForContact "ida" c7DB).length ≠ 1 := by
  decide

/-- C7 (amended): in the example scenario, for any distinct generated ids,
`getConnectionsForContact(Alice)` returns exactly two entries — one per
mirror row of the single relationship — each of whose other-contact fields
name Bob and whose label is "friend". -/
theorem c7_two_entries (ia ib i1 i2 t1 t2 t3 : String)
    (hab : ia ≠ ib) (h12 : i1 ≠ i2) :
    (getConnectionsForContact ia (c7Scenario ia ib i1 i2 t1 t2 t3)).length = 2 ∧
    ∀ e ∈ getConnectionsForContact ia (c7Scenario ia ib i1 i2 t1 t2 t3),
      e.other_contact_id = ib ∧ e.other_contact_name = "Bob" ∧ e.label = "friend" := by
  have hstate : c7Scenario ia ib i1 i2 t1 t2 t3 =
      ⟨[⟨ia, "Alice", none, none, none, some t1⟩, ⟨ib, "Bob", none, none, none, some t2⟩],
       [⟨i1, ia, ib, "friend", some t3⟩, ⟨i2, ib, ia, "friend", some t3⟩], []⟩ := by
    unfold c7Scenario createContact insertContact createConnection connectionExists insertConn
    simp [emptyDB, jsOrNull, getContactById, hab, h12]
  rw [hstate]
  unfold getConnectionsForContact getContactById
  simp [hab, h12, Ne.symm hab]

/-- Witness for C7 (amended) at concrete generated ids and timestamps. -/
theorem c7_two_entries_witness :
    (getConnectionsForContact "ida" (c7Scenario "ida" "idb" "k1" "k2" "t1" "t2" "t3")).length = 2 ∧
    ∀ e ∈ getConnectionsForContact "ida" (c7Scenario "ida" "idb" "k1" "k2" "t1" "t2" "t3"),
      e.other_contact_id = "idb" ∧ e.other_contact_name = "Bob" ∧ e.label = "friend" :=
  c7_two_entries "ida" "idb" "k1" "k2" "t1" "t2" "t3" (by decide) (by decide)
